import Mathlib

/-!
Verification of the chain-info dumper (`pkg/node`, `pkg/config`) of the
cosmos-registrar repository.

The development shallowly embeds the Go source:

* JSON documents become the inductive type `Json`; Go's
  `json.Unmarshal` into `interface{}` followed by `json.MarshalIndent`
  (which emits object keys in sorted order, 2-space indent) becomes
  `canonValue` composed with `render`.
* The filesystem becomes `FS`: a set of directories plus a map from
  path strings to file contents.  OS-level I/O faults are not modelled
  (writes always succeed); the write-once / merge logic of the source
  is modelled exactly.
* `DumpInfo` is embedded as a function of the node's responses, the
  package-level mutable state (`var eg errgroup.Group` keeps its
  once-recorded error for the lifetime of the process, per
  golang.org/x/sync/errgroup), a completion schedule for the three
  concurrent fetch goroutines, and the prior filesystem.
-/

/-- Generic structured JSON value, the shape produced by Go's
`json.Unmarshal` into `interface{}` (`sortedGenesis`, part_000 lines
210-212).  Objects carry their fields in source order; numbers are
modelled as integers (scalar values are opaque to the canonicalizer). -/
inductive Json where
  | null : Json
  | bool (b : Bool) : Json
  | num (n : Int) : Json
  | str (s : String) : Json
  | arr (xs : List Json) : Json
  | obj (fields : List (String × Json)) : Json

/-- Byte-wise lexicographic comparison of key strings, the order Go
uses when `json.Marshal` sorts the keys of a `map[string]interface{}`
(UTF-8 byte order agrees with code-point order). -/
def charListLe : List Char → List Char → Bool
  | [], _ => true
  | _ :: _, [] => false
  | a :: as, b :: bs =>
    if a.toNat < b.toNat then true
    else if b.toNat < a.toNat then false
    else charListLe as bs

/-- Order on object fields: compare the keys byte-wise. -/
def keyLe (a b : String × Json) : Prop := charListLe a.1.data b.1.data = true

instance : DecidableRel keyLe := fun a b =>
  inferInstanceAs (Decidable (charListLe a.1.data b.1.data = true))

theorem charListLe_refl : ∀ x, charListLe x x = true
  | [] => rfl
  | a :: as => by simp [charListLe, charListLe_refl as]

theorem charListLe_total : ∀ x y, charListLe x y = true ∨ charListLe y x = true
  | [], _ => Or.inl rfl
  | _ :: _, [] => Or.inr rfl
  | a :: as, b :: bs => by
    rcases Nat.lt_trichotomy a.toNat b.toNat with h | h | h
    · exact Or.inl (by simp [charListLe, h])
    · rcases charListLe_total as bs with ih | ih
      · exact Or.inl (by simp [charListLe, h, Nat.lt_irrefl, ih])
      · exact Or.inr (by simp [charListLe, h.symm, Nat.lt_irrefl, ih])
    · exact Or.inr (by simp [charListLe, h])

theorem charListLe_trans :
    ∀ x y z, charListLe x y = true → charListLe y z = true → charListLe x z = true
  | [], _, _, _, _ => rfl
  | _ :: _, [], _, h, _ => by simp [charListLe] at h
  | _ :: _, _ :: _, [], _, h => by simp [charListLe] at h
  | a :: as, b :: bs, c :: cs, h1, h2 => by
    rcases Nat.lt_trichotomy a.toNat b.toNat with hab | hab | hab
    · rcases Nat.lt_trichotomy b.toNat c.toNat with hbc | hbc | hbc
      · simp [charListLe, Nat.lt_trans hab hbc]
      · have hac : a.toNat < c.toNat := by rw [← hbc]; exact hab
        simp [charListLe, hac]
      · exfalso; simp [charListLe, Nat.lt_asymm hbc, hbc] at h2
    · rcases Nat.lt_trichotomy b.toNat c.toNat with hbc | hbc | hbc
      · have hac : a.toNat < c.toNat := by rw [hab]; exact hbc
        simp [charListLe, hac]
      · have hac : a.toNat = c.toNat := hab.trans hbc
        simp [charListLe, hab, Nat.lt_irrefl] at h1
        simp [charListLe, hbc, Nat.lt_irrefl] at h2
        simp [charListLe, hac, Nat.lt_irrefl, charListLe_trans as bs cs h1 h2]
      · exfalso; simp [charListLe, Nat.lt_asymm hbc, hbc] at h2
    · exfalso; simp [charListLe, Nat.lt_asymm hab, hab] at h1

theorem charListLe_antisymm :
    ∀ x y, charListLe x y = true → charListLe y x = true → x = y
  | [], [], _, _ => rfl
  | _ :: _, [], h, _ => by simp [charListLe] at h
  | [], _ :: _, _, h => by simp [charListLe] at h
  | a :: as, b :: bs, h1, h2 => by
    rcases Nat.lt_trichotomy a.toNat b.toNat with h | h | h
    · exfalso; simp [charListLe, h, Nat.lt_asymm h] at h2
    · have ha : a = b := by
        have hv : a.val.toNat = b.val.toNat := h
        have : a.val = b.val := UInt32.ext hv
        exact Char.ext this
      simp [charListLe, h, Nat.lt_irrefl] at h1 h2
      rw [ha, charListLe_antisymm as bs h1 h2]
    · exfalso; simp [charListLe, h, Nat.lt_asymm h] at h1

instance : IsTotal (String × Json) keyLe :=
  ⟨fun a b => charListLe_total a.1.data b.1.data⟩

instance : IsTrans (String × Json) keyLe :=
  ⟨fun _ _ _ h1 h2 => charListLe_trans _ _ _ h1 h2⟩

instance : IsRefl (String × Json) keyLe := ⟨fun a => charListLe_refl a.1.data⟩

/-- Strict version of `keyLe`, used only in proofs: on field lists with
no duplicate keys, being sorted by `keyLe` is the same as being sorted
by `keyLt`, and `keyLt` is antisymmetric. -/
def keyLt (a b : String × Json) : Prop := keyLe a b ∧ a.1 ≠ b.1

instance : IsAntisymm (String × Json) keyLt :=
  ⟨fun a b h1 h2 => by
    have hd : a.1.data = b.1.data := charListLe_antisymm _ _ h1.1 h2.1
    exact absurd (String.ext_iff.mpr hd) h1.2⟩

/-- Sorting object fields by key, as Go's `json.Marshal` does for a
`map[string]interface{}` (`sortedGenesis` re-serialization step). -/
def sortByKey (l : List (String × Json)) : List (String × Json) :=
  List.insertionSort keyLe l

mutual
/-- Model of the generic decode / sorted re-encode round trip of
`sortedGenesis` (part_000 lines 203-223): every object's fields are
recursively sorted by key.  On documents without duplicate keys this is
exactly what `json.Unmarshal` into `interface{}` followed by
`json.MarshalIndent` does to the tree structure. -/
def canonValue : Json → Json
  | .null => .null
  | .bool b => .bool b
  | .num n => .num n
  | .str s => .str s
  | .arr xs => .arr (canonList xs)
  | .obj fs => .obj (sortByKey (canonFields fs))
termination_by structural j => j

/-- Pointwise `canonValue` over an array's elements. -/
def canonList : List Json → List Json
  | [] => []
  | x :: xs => canonValue x :: canonList xs
termination_by structural l => l

/-- Pointwise `canonValue` over an object's field values. -/
def canonFields : List (String × Json) → List (String × Json)
  | [] => []
  | (k, v) :: fs => (k, canonValue v) :: canonFields fs
termination_by structural l => l
end

theorem canonList_eq_map : ∀ xs : List Json, canonList xs = xs.map canonValue
  | [] => rfl
  | x :: xs => by simp [canonList, canonList_eq_map xs]

theorem canonFields_eq_map :
    ∀ fs : List (String × Json), canonFields fs = fs.map (fun e => (e.1, canonValue e.2))
  | [] => rfl
  | (k, v) :: fs => by simp [canonFields, canonFields_eq_map fs]

theorem canonFields_keys (fs : List (String × Json)) :
    (canonFields fs).map Prod.fst = fs.map Prod.fst := by
  rw [canonFields_eq_map]
  simp

/-- Two-space padding used by `json.MarshalIndent(c, "", "  ")`. -/
def jpad (n : Nat) : String := String.mk (List.replicate n ' ')

/-- Minimal JSON string quoting (quote and backslash escaped; Go also
escapes control characters and HTML metacharacters, which does not
affect any property proved here). -/
def jescapeChar (c : Char) : String :=
  if c = '"' then "\\\"" else if c = '\\' then "\\\\" else String.mk [c]

/-- Quote a JSON string value. -/
def jquote (s : String) : String := "\"" ++ String.join (s.data.map jescapeChar) ++ "\""

mutual
/-- Rendering of a JSON value in the style of
`json.MarshalIndent(v, "", "  ")`: 2-space indentation, each element on
its own line, object fields emitted in list order. -/
def render : Json → Nat → String
  | .null, _ => "null"
  | .bool true, _ => "true"
  | .bool false, _ => "false"
  | .num n, _ => toString n
  | .str s, _ => jquote s
  | .arr [], _ => "[]"
  | .arr (x :: xs), ind =>
    "[\n" ++ String.intercalate ",\n" (renderItems (x :: xs) (ind + 2)) ++
      "\n" ++ jpad ind ++ "]"
  | .obj [], _ => "\x7b\x7d"
  | .obj (f :: fs), ind =>
    "\x7b\n" ++ String.intercalate ",\n" (renderEntries (f :: fs) (ind + 2)) ++
      "\n" ++ jpad ind ++ "\x7d"
termination_by structural j => j

/-- Rendered lines of an array's elements. -/
def renderItems : List Json → Nat → List String
  | [], _ => []
  | x :: xs, ind => (jpad ind ++ render x ind) :: renderItems xs ind
termination_by structural l => l

/-- Rendered lines of an object's fields. -/
def renderEntries : List (String × Json) → Nat → List String
  | [], _ => []
  | (k, v) :: fs, ind =>
    (jpad ind ++ jquote k ++ ": " ++ render v ind) :: renderEntries fs ind
termination_by structural l => l
end

/-- Model of `sortedGenesis` (part_000 lines 203-223): marshal the
genesis document, decode into a generic value, re-serialize with sorted
keys and 2-space indent, and hash the canonical bytes.  The SHA-256
digest is an external library call (`crypto/sha256`), so it is passed
in as an arbitrary hex-encoding function `hashHex`; the returned pair
is (checksum, canonical bytes). -/
def sortedGenesis (hashHex : String → String) (gen : Json) : String × String :=
  let indented := render (canonValue gen) 0
  (hashHex indented, indented)

/-- One re-ordering step between structurally equal documents: swap two
adjacent fields of an object whose keys are all distinct, anywhere in
the tree.  Adjacent transpositions generate every permutation, so the
reflexive-transitive closure `StructEq` relates exactly the documents
that present the same unordered key/value tree in different key
orders. -/
inductive JStep : Json → Json → Prop where
  | swap (as bs : List (String × Json)) (k k' : String) (v v' : Json)
      (hnd : ((as ++ (k, v) :: (k', v') :: bs).map Prod.fst).Nodup) :
      JStep (.obj (as ++ (k, v) :: (k', v') :: bs)) (.obj (as ++ (k', v') :: (k, v) :: bs))
  | inArr (as bs : List Json) (x y : Json) :
      JStep x y → JStep (.arr (as ++ x :: bs)) (.arr (as ++ y :: bs))
  | inObj (as bs : List (String × Json)) (k : String) (v w : Json) :
      JStep v w → JStep (.obj (as ++ (k, v) :: bs)) (.obj (as ++ (k, w) :: bs))

/-- Structural equality of two genesis documents: the same unordered
tree of key/value data, differing only in the order object keys were
originally written. -/
def StructEq : Json → Json → Prop := Relation.ReflTransGen JStep

theorem sortByKey_sorted (l : List (String × Json)) :
    List.Sorted keyLe (sortByKey l) :=
  List.sorted_insertionSort keyLe l

theorem sortByKey_perm (l : List (String × Json)) : (sortByKey l).Perm l :=
  List.perm_insertionSort keyLe l

/-- Key lemma for canonicalization determinism: sorting by key is
invariant under permutation of a duplicate-free field list. -/
theorem sortByKey_eq_of_perm {l1 l2 : List (String × Json)}
    (hp : l1.Perm l2) (hnd : (l1.map Prod.fst).Nodup) :
    sortByKey l1 = sortByKey l2 := by
  have hperm : (sortByKey l1).Perm (sortByKey l2) :=
    ((sortByKey_perm l1).trans hp).trans (sortByKey_perm l2).symm
  have hnd1 : ((sortByKey l1).map Prod.fst).Nodup :=
    ((sortByKey_perm l1).map Prod.fst).symm.nodup hnd
  have hnd2 : ((sortByKey l2).map Prod.fst).Nodup :=
    ((sortByKey_perm l2).map Prod.fst).symm.nodup ((hp.map Prod.fst).nodup hnd)
  have hs1 : List.Sorted keyLt (sortByKey l1) :=
    (sortByKey_sorted l1).and (List.pairwise_map.mp hnd1)
  have hs2 : List.Sorted keyLt (sortByKey l2) :=
    (sortByKey_sorted l2).and (List.pairwise_map.mp hnd2)
  exact List.eq_of_perm_of_sorted hperm hs1 hs2

/-- Canonicalization is invariant under a single field re-ordering
step anywhere in the document tree. -/
theorem canonValue_step {a b : Json} (h : JStep a b) :
    canonValue a = canonValue b := by
  induction h with
  | swap as bs k k' v v' hnd =>
    simp only [canonValue]
    congr 1
    apply sortByKey_eq_of_perm
    · rw [canonFields_eq_map, canonFields_eq_map]
      simp only [List.map_append, List.map_cons]
      exact List.Perm.append_left _ (List.Perm.swap _ _ _)
    · rw [canonFields_keys]
      exact hnd
  | inArr as bs x y hxy ih =>
    simp only [canonValue]
    congr 1
    rw [canonList_eq_map, canonList_eq_map]
    simp [ih]
  | inObj as bs k v w hvw ih =>
    simp only [canonValue]
    congr 1
    rw [canonFields_eq_map, canonFields_eq_map]
    simp [ih]

/-- Canonicalization is invariant under structural equality. -/
theorem canonValue_eq_of_structEq {a b : Json} (h : StructEq a b) :
    canonValue a = canonValue b := by
  induction h with
  | refl => rfl
  | tail _ hstep ih => exact ih.trans (canonValue_step hstep)

/-- C1: for every two genesis documents that are structurally equal
(the same unordered tree of key/value data) but differ in original key
order, `sortedGenesis` produces byte-identical canonical output bytes
and an identical hex SHA-256 checksum (the checksum is the hash of the
canonical bytes, so it agrees for every hash function). -/
theorem sortedGenesis_deterministic (hashHex : String → String) {a b : Json}
    (h : StructEq a b) :
    sortedGenesis hashHex a = sortedGenesis hashHex b := by
  unfold sortedGenesis
  rw [canonValue_eq_of_structEq h]

/-- Witness for C1 at a concrete pair of documents differing in key
order at both nesting levels reachable by one swap. -/
theorem sortedGenesis_deterministic_witness :
    StructEq (Json.obj [("b", Json.num 2), ("a", Json.num 1)])
      (Json.obj [("a", Json.num 1), ("b", Json.num 2)]) ∧
    sortedGenesis (fun s => s) (Json.obj [("b", Json.num 2), ("a", Json.num 1)]) =
      sortedGenesis (fun s => s) (Json.obj [("a", Json.num 1), ("b", Json.num 2)]) :=
  have h : StructEq (Json.obj [("b", Json.num 2), ("a", Json.num 1)])
      (Json.obj [("a", Json.num 1), ("b", Json.num 2)]) :=
    Relation.ReflTransGen.single
      (JStep.swap [] [] "b" "a" (Json.num 2) (Json.num 1) (by decide))
  ⟨h, sortedGenesis_deterministic (fun s => s) h⟩

/-- File contents as stored by the dumper.  `peerList ps` is the
`json.MarshalIndent` serialization of a `[]string` (which round-trips
through `json.Unmarshal` to exactly `ps`); `other` is any other byte
content — in particular anything that does not parse as a JSON array of
strings. -/
inductive Content where
  | other (s : String)
  | peerList (ps : List String)
deriving DecidableEq

/-- Result of `client.Status()` (the fields `DumpInfo` reads). -/
structure NodeStatus where
  network : String
  catchingUp : Bool
  latestBlockHeight : Int
deriving DecidableEq

/-- Result of `client.Commit(&h)` (the fields `DumpInfo` reads:
`commit.SignedHeader.Header.Height` and
`commit.SignedHeader.Commit.BlockID.Hash.String()`). -/
structure SignedHeader where
  height : Int
  blockIDHash : String
deriving DecidableEq

/-- One peer from `client.NetInfo()`: node identity, remote IP and
advertised listen address (`stringsFromPeers`, part_000 lines 195-201). -/
structure NodePeer where
  id : String
  remoteIP : String
  listenAddr : String
deriving DecidableEq

/-- Build metadata from configuration (`pkg/config`, `Binary` struct). -/
structure Binary where
  name : String
  repo : String
  build : String
  version : String
deriving DecidableEq

/-- The slice of `registrar.Config` that `DumpInfo` consumes. -/
structure Config where
  rpcAddr : String
  binary : Binary
deriving DecidableEq

/-- Serialization of the binary-build descriptor,
`json.MarshalIndent(&Binary{...}, "", "  ")` with the struct's declared
field order (`Config.Binary`, config.go lines 30-39). -/
def Config.BinaryBytes (c : Config) : String :=
  render (.obj [("name", .str c.binary.name), ("repo", .str c.binary.repo),
    ("build", .str c.binary.build), ("version", .str c.binary.version)]) 0

/-- The node's responses for one run.  `commitR` is indexed by the
height requested (`DumpInfo` asks for the status' latest block height).
Transport errors are the `Except.error` cases. -/
structure Resp where
  clientErr : Option String
  statusR : Except String NodeStatus
  genesisR : Except String Json
  commitR : Int → Except String SignedHeader
  netInfoR : Except String (List NodePeer)

/-- Package-level mutable state of `pkg/node` (part_000 lines 19-25)
that survives between calls of `DumpInfo` in one process: the
`errgroup.Group` records the first error ever returned by one of its
goroutines via `sync.Once` and `Wait` keeps returning it for the
lifetime of the group.  The package-level result pointers `gen`,
`commit`, `netInfo` are always re-assigned by the fetch goroutines
before the persist phase reads them, so only the recorded error needs
tracking. -/
structure PkgState where
  egErr : Option String
deriving DecidableEq

/-- The filesystem visible to `DumpInfo`: existing directories and a
map from paths to file contents.  OS-level failures (permissions, full
disk) are not modelled: `os.Mkdir` and `ioutil.WriteFile` always
succeed, `os.Stat` is an existence test. -/
structure FS where
  dirs : List String
  files : String → Option Content

/-- Existence check, `os.Stat` + `os.IsNotExist`. -/
def FS.statExists (fs : FS) (p : String) : Bool := (fs.files p).isSome

/-- Model of `ioutil.WriteFile` (part_000 lines 177-183). -/
def FS.writeFile (fs : FS) (p : String) (c : Content) : FS :=
  ⟨fs.dirs, fun q => if q = p then some c else fs.files q⟩

/-- Model of `os.Remove` on a file path. -/
def FS.removeFile (fs : FS) (p : String) : FS :=
  ⟨fs.dirs, fun q => if q = p then none else fs.files q⟩

/-- Model of `updateFile` (part_000 lines 171-175): delete the target
path, then write the new payload — plain replace semantics. -/
def updateFile (fs : FS) (p : String) (c : Content) : FS :=
  (fs.removeFile p).writeFile p c

/-- Model of `createDirIfNotExist` (part_000 lines 185-193). -/
def createDirIfNotExist (fs : FS) (p : String) : FS :=
  if p ∈ fs.dirs then fs else ⟨p :: fs.dirs, fs.files⟩

/-- Model of `path.Join` for the clean, non-empty segments the dumper
uses. -/
def pathJoin (a b : String) : String := a ++ "/" ++ b

/-- The `repoDir` path resolver (part_000 lines 151-163). -/
structure repoDir where
  dir : String
  chainID : String

def repoDir.chainPath (r : repoDir) : String := pathJoin r.dir r.chainID

def repoDir.genesisPath (r : repoDir) : String := pathJoin r.chainPath "genesis.json"

def repoDir.genesisSumPath (r : repoDir) : String := pathJoin r.chainPath "genesis.json.sum"

def repoDir.lrpath (r : repoDir) : String := pathJoin r.chainPath "light-roots"

def repoDir.latestPath (r : repoDir) : String := pathJoin r.lrpath "latest.json"

def repoDir.heightPath (r : repoDir) (h : Int) : String :=
  pathJoin r.lrpath (toString h ++ ".json")

def repoDir.binariesPath (r : repoDir) : String := pathJoin r.chainPath "binaries.json"

def repoDir.peersPath (r : repoDir) : String := pathJoin r.chainPath "peers.json"

/-- The light client root file format (part_000 lines 225-230). -/
structure LightRoot where
  trustHeight : Int
  trustHash : String

/-- Model of `NewLightRoot` (part_000 lines 232-239):
`json.MarshalIndent` of the `LightRoot` built from the signed header,
with the struct's declared field order. -/
def NewLightRoot (sh : SignedHeader) : String :=
  render (.obj [("trust-height", .num sh.height), ("trust-hash", .str sh.blockIDHash)]) 0

/-- Character-level splitting at colons, the model of
`strings.Split(addr, ":")` (always returns at least one segment). -/
def splitColonAux : List Char → List Char → List (List Char)
  | [], acc => [acc.reverse]
  | c :: cs, acc =>
    if c = ':' then acc.reverse :: splitColonAux cs []
    else splitColonAux cs (c :: acc)

/-- Split a string at every colon. -/
def splitColon (s : String) : List String :=
  (splitColonAux s.data []).map String.mk

/-- Model of `stringsFromPeers` (part_000 lines 195-201): format each
peer as `id@remoteIP:port` where the port is the last colon-separated
segment of the advertised listen address. -/
def stringsFromPeers (ni : List NodePeer) : List String :=
  ni.map (fun p =>
    p.id ++ "@" ++ p.remoteIP ++ ":" ++ ((splitColon p.listenAddr).getLastD ""))

/-- Model of `dedupe` (part_000 lines 241-250).  The Go code inserts
every string into a `map[string]bool` and collects the keys; the key
set equals the set of input elements and carries no specified order
(Go map iteration order is randomized), so the model fixes one
duplicate-free representative with the same elements.  All properties
proved about it are order-insensitive (membership, non-duplication,
length = number of distinct elements). -/
def dedupe (ele : List String) : List String := ele.dedup

/-- The merge performed at part_000 line 135:
`ps := dedupe(append(fp, qp...))`. -/
def mergePeers (prior discovered : List String) : List String :=
  dedupe (prior ++ discovered)

/-- Model of `json.Unmarshal(pfb, &fp)` for the peers file (part_000
line 130): only the serialization of a `[]string` parses back; any
other content fails with the wrapped unmarshal error (Go embeds the
json package's error text). -/
def unmarshalStrings : Content → Except String (List String)
  | .peerList ps => .ok ps
  | .other _ => .error "unmarshaling peer strings: invalid peers content"

/-- The genesis goroutine of `DumpInfo` (part_000 lines 93-108):
write-once gate decided by `os.Stat` existence, then checksum first,
genesis bytes second.  The canonicalization of a decoded document
cannot fail in the model (a well-formed tree always re-serializes), so
this task returns no error. -/
def persistGenesis (hashHex : String → String) (g : Json) (r : repoDir) (fs : FS) : FS :=
  if fs.statExists r.genesisPath then fs
  else
    let sg := sortedGenesis hashHex g
    (fs.writeFile r.genesisSumPath (.other sg.1)).writeFile r.genesisPath (.other sg.2)

/-- The peers goroutine of `DumpInfo` (part_000 lines 109-143): first
population when no file exists, otherwise parse-merge-rewrite; parse
failure aborts the task, leaving the file untouched. -/
def persistPeers (ni : List NodePeer) (r : repoDir) (fs : FS) : Option String × FS :=
  let qp := stringsFromPeers ni
  match fs.files r.peersPath with
  | none => (none, fs.writeFile r.peersPath (.peerList qp))
  | some c =>
    match unmarshalStrings c with
    | .error e => (some e, fs)
    | .ok fp => (none, updateFile fs r.peersPath (.peerList (mergePeers fp qp)))

/-- The persist phase of `DumpInfo` (part_000 lines 82-143): directory
preparation, then the five artifact writes.  The concurrent tasks own
disjoint paths (proved by the path-inequality lemmas below), so they
are applied in program order; the only fallible task in the model is
the peers task, whose error the final `eg.Wait()` reports. -/
def persistPhase (cfg : Config) (hashHex : String → String) (g : Json)
    (cm : SignedHeader) (ni : List NodePeer) (r : repoDir) (fs : FS) :
    Option String × FS :=
  let fs1 := createDirIfNotExist fs r.chainPath
  let fs2 := createDirIfNotExist fs1 r.lrpath
  let fs3 := updateFile fs2 r.latestPath (.other (NewLightRoot cm))
  let fs4 := updateFile fs3 (r.heightPath cm.height) (.other (NewLightRoot cm))
  let fs5 := updateFile fs4 r.binariesPath (.other cfg.BinaryBytes)
  let fs6 := persistGenesis hashHex g r fs5
  persistPeers ni r fs6

/-- Error produced by each of the three fetch goroutines (part_000
lines 47-76), wrapped with the artifact that failed: task 0 fetches the
genesis, task 1 the commit at the status height, task 2 the net info. -/
def fetchTaskErr (resp : Resp) (h : Int) : Fin 3 → Option String
  | ⟨0, _⟩ =>
    match resp.genesisR with
    | .error e => some ("genesis file: " ++ e)
    | .ok _ => none
  | ⟨1, _⟩ =>
    match resp.commitR h with
    | .error e => some ("commit: " ++ e)
    | .ok _ => none
  | ⟨2, _⟩ =>
    match resp.netInfoR with
    | .error e => some ("net-info: " ++ e)
    | .ok _ => none

/-- Semantics of `errgroup.Group.Wait` with the group's `sync.Once`
error slot: if an error was recorded earlier (in this run or a previous
one — the group is package-level) it is returned unchanged; otherwise
the first error in goroutine completion order is recorded and
returned. -/
def egWait (prev : Option String) (errs : List (Option String)) : Option String :=
  match prev with
  | some e => some e
  | none => errs.findSome? id

/-- The run outcome: the returned error, the package-level state left
behind, and the resulting filesystem. -/
structure RunResult where
  err : Option String
  pkg : PkgState
  fs : FS

/-- Model of `DumpInfo` (part_000 lines 29-149).  `sched` is the
completion order of the three fetch goroutines (the fetch phase does no
filesystem work, so only the error choice depends on it); `pkg` is the
package-level state carried between invocations.  The persist phase is
reached only when `eg.Wait()` returns nil, which (for a schedule
covering all three tasks) implies every fetch succeeded; the final
fallback branch covers incomplete schedules and performs nothing. -/
def DumpInfo (base chainID : String) (cfg : Config) (resp : Resp)
    (hashHex : String → String) (sched : List (Fin 3)) (pkg : PkgState)
    (fs : FS) : RunResult :=
  match resp.clientErr with
  | some e => ⟨some ("error creating tendermint client: " ++ e), pkg, fs⟩
  | none =>
    match resp.statusR with
    | .error e => ⟨some ("error fetching client status: " ++ e), pkg, fs⟩
    | .ok stat =>
      if stat.network ≠ chainID then
        ⟨some ("node(" ++ cfg.rpcAddr ++ ") is on chain(" ++ stat.network ++
          ") not configured chain(" ++ chainID ++ ")"), pkg, fs⟩
      else if stat.catchingUp then
        ⟨some ("node(" ++ cfg.rpcAddr ++ ") on chain(" ++ chainID ++
          ") still catching up"), pkg, fs⟩
      else
        match egWait pkg.egErr (sched.map (fetchTaskErr resp stat.latestBlockHeight)) with
        | some e => ⟨some ("fetching: " ++ e), ⟨some e⟩, fs⟩
        | none =>
          match resp.genesisR, resp.commitR stat.latestBlockHeight, resp.netInfoR with
          | .ok g, .ok cm, .ok ni =>
            let pr := persistPhase cfg hashHex g cm ni ⟨base, chainID⟩ fs
            ⟨pr.1, ⟨pr.1⟩, pr.2⟩
          | _, _, _ => ⟨none, ⟨none⟩, fs⟩

/-- Left cancellation for string concatenation. -/
theorem str_app_cancel {p s t : String} (h : p ++ s = p ++ t) : s = t := by
  have hd := String.ext_iff.mp h
  rw [String.data_append, String.data_append] at hd
  exact String.ext_iff.mpr (List.append_cancel_left hd)

/-- Two paths under the same chain directory agree only if their
suffixes agree. -/
theorem chain_cancel {d c s t : String}
    (h : d ++ ("/" ++ (c ++ ("/" ++ s))) = d ++ ("/" ++ (c ++ ("/" ++ t)))) : s = t :=
  str_app_cancel (str_app_cancel (str_app_cancel (str_app_cancel h)))

/-- A string starting with the light-roots directory prefix never
equals a string whose first character is not the letter l. -/
theorem lightroots_prefix_ne (x : String) {t : String} {c : Char} {ts : List Char}
    (ht : t.data = c :: ts) (hc : c ≠ 'l') : "light-roots" ++ x ≠ t := by
  intro h
  have hd := congrArg String.data h
  rw [String.data_append, ht] at hd
  have h2 : 'l' :: ("ight-roots".data ++ x.data) = c :: ts := hd
  injection h2 with h3 _
  exact hc h3.symm

theorem genesisPath_norm (r : repoDir) :
    r.genesisPath = r.dir ++ ("/" ++ (r.chainID ++ ("/" ++ "genesis.json"))) := by
  simp [repoDir.genesisPath, repoDir.chainPath, pathJoin, String.append_assoc]

theorem genesisSumPath_norm (r : repoDir) :
    r.genesisSumPath = r.dir ++ ("/" ++ (r.chainID ++ ("/" ++ "genesis.json.sum"))) := by
  simp [repoDir.genesisSumPath, repoDir.chainPath, pathJoin, String.append_assoc]

theorem binariesPath_norm (r : repoDir) :
    r.binariesPath = r.dir ++ ("/" ++ (r.chainID ++ ("/" ++ "binaries.json"))) := by
  simp [repoDir.binariesPath, repoDir.chainPath, pathJoin, String.append_assoc]

theorem peersPath_norm (r : repoDir) :
    r.peersPath = r.dir ++ ("/" ++ (r.chainID ++ ("/" ++ "peers.json"))) := by
  simp [repoDir.peersPath, repoDir.chainPath, pathJoin, String.append_assoc]

theorem latestPath_norm (r : repoDir) :
    r.latestPath = r.dir ++ ("/" ++ (r.chainID ++ ("/" ++ "light-roots/latest.json"))) := by
  simp [repoDir.latestPath, repoDir.lrpath, repoDir.chainPath, pathJoin, String.append_assoc]

theorem heightPath_norm (r : repoDir) (h : Int) :
    r.heightPath h =
      r.dir ++ ("/" ++ (r.chainID ++ ("/light-roots/" ++ (toString h ++ ".json")))) := by
  simp [repoDir.heightPath, repoDir.lrpath, repoDir.chainPath, pathJoin, String.append_assoc]

/-- A path in the light-roots directory never equals a sibling of that
directory whose name starts with a different letter. -/
theorem slash_lightroots_ne (x : String) {s : String} {c : Char} {cs : List Char}
    (hs : s.data = c :: cs) (hc : c ≠ 'l') : "/light-roots/" ++ x ≠ "/" ++ s := by
  intro h
  have hd := congrArg String.data h
  rw [String.data_append, String.data_append, hs] at hd
  have h2 : '/' :: ('l' :: ("ight-roots/".data ++ x.data)) = '/' :: (c :: cs) := hd
  injection h2 with _ h3
  injection h3 with h4 _
  exact hc h4.symm

/-- Cancellation down to the two differing suffixes of sibling paths. -/
theorem chain_cancel3 {d c A B : String}
    (h : d ++ ("/" ++ (c ++ A)) = d ++ ("/" ++ (c ++ B))) : A = B :=
  str_app_cancel (str_app_cancel (str_app_cancel h))

theorem latestPath_ne_genesisPath (r : repoDir) : r.latestPath ≠ r.genesisPath := by
  rw [latestPath_norm, genesisPath_norm]
  intro h
  exact absurd (chain_cancel h) (by decide)

theorem latestPath_ne_genesisSumPath (r : repoDir) : r.latestPath ≠ r.genesisSumPath := by
  rw [latestPath_norm, genesisSumPath_norm]
  intro h
  exact absurd (chain_cancel h) (by decide)

theorem latestPath_ne_peersPath (r : repoDir) : r.latestPath ≠ r.peersPath := by
  rw [latestPath_norm, peersPath_norm]
  intro h
  exact absurd (chain_cancel h) (by decide)

theorem latestPath_ne_binariesPath (r : repoDir) : r.latestPath ≠ r.binariesPath := by
  rw [latestPath_norm, binariesPath_norm]
  intro h
  exact absurd (chain_cancel h) (by decide)

theorem heightPath_ne_genesisPath (r : repoDir) (h : Int) :
    r.heightPath h ≠ r.genesisPath := by
  rw [heightPath_norm, genesisPath_norm]
  intro he
  exact slash_lightroots_ne _
    (show ("genesis.json" : String).data = 'g' :: "enesis.json".data from rfl)
    (by decide) (chain_cancel3 he)

theorem heightPath_ne_genesisSumPath (r : repoDir) (h : Int) :
    r.heightPath h ≠ r.genesisSumPath := by
  rw [heightPath_norm, genesisSumPath_norm]
  intro he
  exact slash_lightroots_ne _
    (show ("genesis.json.sum" : String).data = 'g' :: "enesis.json.sum".data from rfl)
    (by decide) (chain_cancel3 he)

theorem heightPath_ne_peersPath (r : repoDir) (h : Int) :
    r.heightPath h ≠ r.peersPath := by
  rw [heightPath_norm, peersPath_norm]
  intro he
  exact slash_lightroots_ne _
    (show ("peers.json" : String).data = 'p' :: "eers.json".data from rfl)
    (by decide) (chain_cancel3 he)

theorem heightPath_ne_binariesPath (r : repoDir) (h : Int) :
    r.heightPath h ≠ r.binariesPath := by
  rw [heightPath_norm, binariesPath_norm]
  intro he
  exact slash_lightroots_ne _
    (show ("binaries.json" : String).data = 'b' :: "inaries.json".data from rfl)
    (by decide) (chain_cancel3 he)

theorem binariesPath_ne_genesisPath (r : repoDir) : r.binariesPath ≠ r.genesisPath := by
  rw [binariesPath_norm, genesisPath_norm]
  intro h
  exact absurd (chain_cancel h) (by decide)

theorem binariesPath_ne_genesisSumPath (r : repoDir) :
    r.binariesPath ≠ r.genesisSumPath := by
  rw [binariesPath_norm, genesisSumPath_norm]
  intro h
  exact absurd (chain_cancel h) (by decide)

theorem binariesPath_ne_peersPath (r : repoDir) : r.binariesPath ≠ r.peersPath := by
  rw [binariesPath_norm, peersPath_norm]
  intro h
  exact absurd (chain_cancel h) (by decide)

theorem peersPath_ne_genesisPath (r : repoDir) : r.peersPath ≠ r.genesisPath := by
  rw [peersPath_norm, genesisPath_norm]
  intro h
  exact absurd (chain_cancel h) (by decide)

theorem peersPath_ne_genesisSumPath (r : repoDir) : r.peersPath ≠ r.genesisSumPath := by
  rw [peersPath_norm, genesisSumPath_norm]
  intro h
  exact absurd (chain_cancel h) (by decide)

theorem genesisPath_ne_genesisSumPath (r : repoDir) :
    r.genesisPath ≠ r.genesisSumPath := by
  rw [genesisPath_norm, genesisSumPath_norm]
  intro h
  exact absurd (chain_cancel h) (by decide)

theorem files_writeFile_self (fs : FS) (p : String) (c : Content) :
    (fs.writeFile p c).files p = some c := by
  simp [FS.writeFile]

theorem files_writeFile_ne (fs : FS) {p q : String} (c : Content) (h : q ≠ p) :
    (fs.writeFile p c).files q = fs.files q := by
  simp [FS.writeFile, h]

theorem files_updateFile_self (fs : FS) (p : String) (c : Content) :
    (updateFile fs p c).files p = some c := by
  simp [updateFile, FS.writeFile, FS.removeFile]

theorem files_updateFile_ne (fs : FS) {p q : String} (c : Content) (h : q ≠ p) :
    (updateFile fs p c).files q = fs.files q := by
  simp [updateFile, FS.writeFile, FS.removeFile, h]

theorem files_createDir (fs : FS) (p q : String) :
    (createDirIfNotExist fs p).files q = fs.files q := by
  unfold createDirIfNotExist
  split <;> rfl

/-- The peers task writes no path other than `peers.json`. -/
theorem persistPeers_files_ne (ni : List NodePeer) (r : repoDir) (fs : FS)
    {q : String} (h : q ≠ r.peersPath) :
    (persistPeers ni r fs).2.files q = fs.files q := by
  unfold persistPeers
  cases hfp : fs.files r.peersPath with
  | none => simp [files_writeFile_ne _ _ h]
  | some c =>
    cases hu : unmarshalStrings c with
    | error e => simp [hu]
    | ok fp => simp [hu, files_updateFile_ne _ _ h]

/-- The genesis task writes no path other than the genesis file and its
checksum. -/
theorem persistGenesis_files_ne (hashHex : String → String) (g : Json) (r : repoDir)
    (fs : FS) {q : String} (h1 : q ≠ r.genesisPath) (h2 : q ≠ r.genesisSumPath) :
    (persistGenesis hashHex g r fs).files q = fs.files q := by
  unfold persistGenesis
  split
  · rfl
  · simp [files_writeFile_ne _ _ h1, files_writeFile_ne _ _ h2]

/-- When the genesis file already exists the genesis task does
nothing. -/
theorem persistGenesis_skip (hashHex : String → String) (g : Json) (r : repoDir)
    (fs : FS) (hex : (fs.files r.genesisPath).isSome = true) :
    persistGenesis hashHex g r fs = fs := by
  unfold persistGenesis
  simp [FS.statExists, hex]

/-- Through the directory preparation and the light-root / binaries
writes, any path different from those three targets keeps its
content. -/
theorem persistPre_files (cfg : Config) (cm : SignedHeader) (r : repoDir) (fs : FS)
    {q : String} (h1 : q ≠ r.latestPath) (h2 : q ≠ r.heightPath cm.height)
    (h3 : q ≠ r.binariesPath) :
    (updateFile (updateFile (updateFile
        (createDirIfNotExist (createDirIfNotExist fs r.chainPath) r.lrpath)
        r.latestPath (.other (NewLightRoot cm)))
        (r.heightPath cm.height) (.other (NewLightRoot cm)))
        r.binariesPath (.other cfg.BinaryBytes)).files q = fs.files q := by
  rw [files_updateFile_ne _ _ h3, files_updateFile_ne _ _ h2,
    files_updateFile_ne _ _ h1, files_createDir, files_createDir]

/-- Core of the write-once property at the persist phase: with the
genesis file present, neither the genesis file nor its checksum file is
touched by any of the five writes. -/
theorem persistPhase_genesis_unchanged (cfg : Config) (hashHex : String → String)
    (g : Json) (cm : SignedHeader) (ni : List NodePeer) (r : repoDir) (fs : FS)
    (hex : (fs.files r.genesisPath).isSome = true) :
    (persistPhase cfg hashHex g cm ni r fs).2.files r.genesisPath =
      fs.files r.genesisPath ∧
    (persistPhase cfg hashHex g cm ni r fs).2.files r.genesisSumPath =
      fs.files r.genesisSumPath := by
  unfold persistPhase
  have hpre : ∀ q, q ≠ r.latestPath → q ≠ r.heightPath cm.height → q ≠ r.binariesPath →
      (updateFile (updateFile (updateFile
        (createDirIfNotExist (createDirIfNotExist fs r.chainPath) r.lrpath)
        r.latestPath (.other (NewLightRoot cm)))
        (r.heightPath cm.height) (.other (NewLightRoot cm)))
        r.binariesPath (.other cfg.BinaryBytes)).files q = fs.files q :=
    fun q a b c => persistPre_files cfg cm r fs a b c
  have hg := hpre r.genesisPath (latestPath_ne_genesisPath r).symm
    (heightPath_ne_genesisPath r cm.height).symm (binariesPath_ne_genesisPath r).symm
  have hs := hpre r.genesisSumPath (latestPath_ne_genesisSumPath r).symm
    (heightPath_ne_genesisSumPath r cm.height).symm (binariesPath_ne_genesisSumPath r).symm
  have hskip := persistGenesis_skip hashHex g r _ (by rw [hg]; exact hex)
  constructor
  · rw [persistPeers_files_ne _ _ _ (peersPath_ne_genesisPath r).symm, hskip, hg]
  · rw [persistPeers_files_ne _ _ _ (peersPath_ne_genesisSumPath r).symm, hskip, hs]

/-- C2: for every prior on-disk state in which `genesis.json` already
exists under the chain directory, a run of `DumpInfo` leaves both
`genesis.json` and `genesis.json.sum` unchanged, regardless of what
genesis document the node reports: the write-once gate is file
existence, not content comparison. -/
theorem dumpInfo_write_once_genesis (base chainID : String) (cfg : Config)
    (resp : Resp) (hashHex : String → String) (sched : List (Fin 3))
    (pkg : PkgState) (fs : FS)
    (hex : (fs.files (repoDir.mk base chainID).genesisPath).isSome = true) :
    (DumpInfo base chainID cfg resp hashHex sched pkg fs).fs.files
        (repoDir.mk base chainID).genesisPath =
      fs.files (repoDir.mk base chainID).genesisPath ∧
    (DumpInfo base chainID cfg resp hashHex sched pkg fs).fs.files
        (repoDir.mk base chainID).genesisSumPath =
      fs.files (repoDir.mk base chainID).genesisSumPath := by
  unfold DumpInfo
  repeat' split
  all_goals
    first
      | exact ⟨rfl, rfl⟩
      | exact persistPhase_genesis_unchanged _ _ _ _ _ _ _ hex

/-- Witness for C2: a filesystem holding only a genesis file, queried
against a healthy node reporting a different genesis document. -/
def wCfg : Config := ⟨"rpc-addr", ⟨"gaiad", "repo", "make build", "v1"⟩⟩

def wStatus : NodeStatus := ⟨"chain-A", false, 7⟩

def wHeader : SignedHeader := ⟨7, "ABCD"⟩

def wPeerA : NodePeer := ⟨"a", "1.2.3.4", "tcp://0.0.0.0:26656"⟩

def wPeerB : NodePeer := ⟨"b", "5.6.7.8", "tcp://0.0.0.0:26656"⟩

def wRespOk : Resp :=
  ⟨none, .ok wStatus, .ok (.obj [("k", .num 1)]), fun _ => .ok wHeader, .ok [wPeerA, wPeerB]⟩

def wSched : List (Fin 3) := [0, 1, 2]

def wFsGenesis : FS :=
  ⟨[], fun q => if q = (repoDir.mk "base" "chain-A").genesisPath
    then some (.other "old-genesis") else none⟩

theorem dumpInfo_write_once_genesis_witness :
    ((wFsGenesis.files (repoDir.mk "base" "chain-A").genesisPath).isSome = true) ∧
    (DumpInfo "base" "chain-A" wCfg wRespOk (fun _ => "sum") wSched ⟨none⟩
        wFsGenesis).fs.files (repoDir.mk "base" "chain-A").genesisPath =
      wFsGenesis.files (repoDir.mk "base" "chain-A").genesisPath ∧
    (DumpInfo "base" "chain-A" wCfg wRespOk (fun _ => "sum") wSched ⟨none⟩
        wFsGenesis).fs.files (repoDir.mk "base" "chain-A").genesisSumPath =
      wFsGenesis.files (repoDir.mk "base" "chain-A").genesisSumPath := by
  refine ⟨rfl, ?_, ?_⟩
  · exact (dumpInfo_write_once_genesis "base" "chain-A" wCfg wRespOk (fun _ => "sum")
      wSched ⟨none⟩ wFsGenesis rfl).1
  · exact (dumpInfo_write_once_genesis "base" "chain-A" wCfg wRespOk (fun _ => "sum")
      wSched ⟨none⟩ wFsGenesis rfl).2

/-- C9: height-indexed light-root files carry no write-once protection:
writing the same height file twice with different contents leaves
exactly the second content (`updateFile` is delete-then-write replace
semantics, part_000 lines 171-175 and line 91). -/
theorem heightPath_no_write_once (fs : FS) (r : repoDir) (h : Int) (c1 c2 : Content) :
    (updateFile (updateFile fs (r.heightPath h) c1) (r.heightPath h) c2).files
      (r.heightPath h) = some c2 :=
  files_updateFile_self _ _ _

/-- C7: the peer merge of part_000 line 135 is idempotent: merging a
discovered set into a result that already merged it changes nothing,
at the level of the persisted set's membership. -/
theorem mergePeers_idem (P D : List String) (x : String) :
    x ∈ mergePeers (mergePeers P D) D ↔ x ∈ mergePeers P D := by
  simp only [mergePeers, dedupe, List.mem_dedup, List.mem_append]
  tauto

/-- C4: for every status whose network identifier differs from the
configured chain identifier (catching-up false), `DumpInfo` fails with
the chain-mismatch error carrying both identifiers, performs no
filesystem operation and leaves the package state alone, and its
outcome does not depend on the genesis / commit / net-info responses
at all (no fetch is performed). -/
theorem dumpInfo_chain_mismatch (base chainID : String) (cfg : Config)
    (resp : Resp) (hashHex : String → String) (sched : List (Fin 3))
    (pkg : PkgState) (fs : FS) (st : NodeStatus)
    (hclient : resp.clientErr = none) (hstat : resp.statusR = .ok st)
    (hne : st.network ≠ chainID) (hcu : st.catchingUp = false) :
    DumpInfo base chainID cfg resp hashHex sched pkg fs =
      ⟨some ("node(" ++ cfg.rpcAddr ++ ") is on chain(" ++ st.network ++
        ") not configured chain(" ++ chainID ++ ")"), pkg, fs⟩ ∧
    (∀ resp2 : Resp, resp2.clientErr = none → resp2.statusR = .ok st →
      DumpInfo base chainID cfg resp2 hashHex sched pkg fs =
        DumpInfo base chainID cfg resp hashHex sched pkg fs) ∧
    (∃ u v : String, "node(" ++ cfg.rpcAddr ++ ") is on chain(" ++ st.network ++
      ") not configured chain(" ++ chainID ++ ")" = u ++ (st.network ++ v)) ∧
    (∃ u v : String, "node(" ++ cfg.rpcAddr ++ ") is on chain(" ++ st.network ++
      ") not configured chain(" ++ chainID ++ ")" = u ++ (chainID ++ v)) := by
  have hrun : ∀ resp2 : Resp, resp2.clientErr = none → resp2.statusR = .ok st →
      DumpInfo base chainID cfg resp2 hashHex sched pkg fs =
        ⟨some ("node(" ++ cfg.rpcAddr ++ ") is on chain(" ++ st.network ++
          ") not configured chain(" ++ chainID ++ ")"), pkg, fs⟩ := by
    intro resp2 h2c h2s
    unfold DumpInfo
    rw [h2c, h2s]
    simp [hne]
  refine ⟨hrun resp hclient hstat, ?_, ?_, ?_⟩
  · intro resp2 h2c h2s
    rw [hrun resp2 h2c h2s, hrun resp hclient hstat]
  · refine ⟨"node(" ++ cfg.rpcAddr ++ ") is on chain(",
      ") not configured chain(" ++ chainID ++ ")", ?_⟩
    simp [String.append_assoc]
  · refine ⟨"node(" ++ cfg.rpcAddr ++ ") is on chain(" ++ st.network ++
      ") not configured chain(", ")", ?_⟩
    simp [String.append_assoc]

/-- Witness for C4: node on chain-B against configured chain-A. -/
def wStatusB : NodeStatus := ⟨"chain-B", false, 7⟩

def wRespB : Resp :=
  ⟨none, .ok wStatusB, .ok (.obj []), fun _ => .ok wHeader, .ok [wPeerA]⟩

def wFsEmpty : FS := ⟨[], fun _ => none⟩

theorem dumpInfo_chain_mismatch_witness :
    wRespB.clientErr = none ∧ wRespB.statusR = .ok wStatusB ∧
    wStatusB.network ≠ "chain-A" ∧ wStatusB.catchingUp = false ∧
    DumpInfo "base" "chain-A" wCfg wRespB (fun _ => "sum") wSched ⟨none⟩ wFsEmpty =
      ⟨some ("node(" ++ wCfg.rpcAddr ++ ") is on chain(" ++ wStatusB.network ++
        ") not configured chain(" ++ "chain-A" ++ ")"), ⟨none⟩, wFsEmpty⟩ :=
  ⟨rfl, rfl, by decide, rfl,
    (dumpInfo_chain_mismatch "base" "chain-A" wCfg wRespB (fun _ => "sum") wSched
      ⟨none⟩ wFsEmpty wStatusB rfl rfl (by decide) rfl).1⟩

theorem findSome?_id_map {α β : Type} (f : α → Option β) :
    ∀ l : List α, (l.map f).findSome? id = l.findSome? f
  | [] => rfl
  | x :: xs => by
    rw [List.map_cons, List.findSome?_cons, List.findSome?_cons, findSome?_id_map f xs]
    rfl

theorem findSome?_isSome_of_mem {α β : Type} (f : α → Option β) :
    ∀ {l : List α} {a : α}, a ∈ l → ∀ {b : β}, f a = some b →
      ∃ c, l.findSome? f = some c := by
  intro l
  induction l with
  | nil => intro a ha; cases ha
  | cons x xs ih =>
    intro a ha b hb
    rw [List.findSome?_cons]
    cases hx : f x with
    | some c => exact ⟨c, rfl⟩
    | none =>
      rcases List.mem_cons.mp ha with rfl | hmem
      · rw [hx] at hb; cases hb
      · exact ih hmem hb

/-- C3: if at least one of the three concurrent fetches fails (on a
schedule that includes that task), `DumpInfo` returns the first error
in goroutine completion order, wrapped with the failing artifact's name
(by `fetchTaskErr`) and with the fetching context, records it in the
package-level errgroup, and performs zero filesystem writes: the
filesystem is returned exactly as it was. -/
theorem dumpInfo_fetch_failfast (base chainID : String) (cfg : Config)
    (resp : Resp) (hashHex : String → String) (sched : List (Fin 3))
    (pkg : PkgState) (fs : FS) (st : NodeStatus)
    (hclient : resp.clientErr = none) (hstat : resp.statusR = .ok st)
    (hnet : st.network = chainID) (hcu : st.catchingUp = false)
    (hpkg : pkg.egErr = none)
    (j : Fin 3) (ej : String) (hj : j ∈ sched)
    (hfail : fetchTaskErr resp st.latestBlockHeight j = some ej) :
    ∃ e : String,
      (sched.map (fetchTaskErr resp st.latestBlockHeight)).findSome? id = some e ∧
      (∃ i : Fin 3, i ∈ sched ∧ fetchTaskErr resp st.latestBlockHeight i = some e) ∧
      DumpInfo base chainID cfg resp hashHex sched pkg fs =
        ⟨some ("fetching: " ++ e), ⟨some e⟩, fs⟩ := by
  obtain ⟨e, he⟩ := findSome?_isSome_of_mem (fetchTaskErr resp st.latestBlockHeight) hj hfail
  refine ⟨e, ?_, ?_, ?_⟩
  · rw [findSome?_id_map]; exact he
  · obtain ⟨i, hi, hie⟩ := List.exists_of_findSome?_eq_some he
    exact ⟨i, hi, hie⟩
  · have hwait : egWait pkg.egErr
        (sched.map (fetchTaskErr resp st.latestBlockHeight)) = some e := by
      rw [hpkg]
      unfold egWait
      rw [findSome?_id_map]
      exact he
    unfold DumpInfo
    rw [hclient, hstat]
    simp [hnet, hcu, hwait]

/-- Witness for C3: a run whose commit fetch fails while genesis and
net-info succeed; the reported error is the commit error and the
filesystem is untouched. -/
def wRespCommitFail : Resp :=
  ⟨none, .ok wStatus, .ok (.obj []), fun _ => .error "boom", .ok [wPeerA]⟩

theorem dumpInfo_fetch_failfast_witness :
    wRespCommitFail.clientErr = none ∧ wRespCommitFail.statusR = .ok wStatus ∧
    wStatus.network = "chain-A" ∧ wStatus.catchingUp = false ∧
    (1 : Fin 3) ∈ wSched ∧
    fetchTaskErr wRespCommitFail wStatus.latestBlockHeight 1 = some "commit: boom" ∧
    (∃ e : String,
      (wSched.map (fetchTaskErr wRespCommitFail wStatus.latestBlockHeight)).findSome? id
        = some e ∧
      (∃ i : Fin 3, i ∈ wSched ∧
        fetchTaskErr wRespCommitFail wStatus.latestBlockHeight i = some e) ∧
      DumpInfo "base" "chain-A" wCfg wRespCommitFail (fun _ => "sum") wSched ⟨none⟩
          wFsEmpty =
        ⟨some ("fetching: " ++ e), ⟨some e⟩, wFsEmpty⟩) :=
  ⟨rfl, rfl, rfl, rfl, by decide, rfl,
    dumpInfo_fetch_failfast "base" "chain-A" wCfg wRespCommitFail (fun _ => "sum")
      wSched ⟨none⟩ wFsEmpty wStatus rfl rfl rfl rfl rfl 1 "commit: boom"
      (by decide) rfl⟩

/-- Once validation passes, every fetch succeeds and nothing stale is
recorded in the package-level errgroup, `DumpInfo` is exactly the
persist phase. -/
theorem dumpInfo_persist_reduction (base chainID : String) (cfg : Config)
    (resp : Resp) (hashHex : String → String) (sched : List (Fin 3))
    (pkg : PkgState) (fs : FS) (st : NodeStatus) (g : Json) (cm : SignedHeader)
    (ni : List NodePeer)
    (hclient : resp.clientErr = none) (hstat : resp.statusR = .ok st)
    (hnet : st.network = chainID) (hcu : st.catchingUp = false)
    (hgen : resp.genesisR = .ok g) (hcm : resp.commitR st.latestBlockHeight = .ok cm)
    (hni : resp.netInfoR = .ok ni) (hpkg : pkg.egErr = none) :
    DumpInfo base chainID cfg resp hashHex sched pkg fs =
      ⟨(persistPhase cfg hashHex g cm ni ⟨base, chainID⟩ fs).1,
        ⟨(persistPhase cfg hashHex g cm ni ⟨base, chainID⟩ fs).1⟩,
        (persistPhase cfg hashHex g cm ni ⟨base, chainID⟩ fs).2⟩ := by
  have hfetch : ∀ i : Fin 3, fetchTaskErr resp st.latestBlockHeight i = none := by
    intro i
    fin_cases i <;> simp [fetchTaskErr, hgen, hcm, hni]
  have hwait : egWait pkg.egErr
      (sched.map (fetchTaskErr resp st.latestBlockHeight)) = none := by
    rw [hpkg]
    unfold egWait
    rw [findSome?_id_map]
    exact List.findSome?_eq_none_iff.mpr (fun x _ => hfetch x)
  unfold DumpInfo
  rw [hclient, hstat]
  simp [hnet, hcu, hwait, hgen, hcm, hni]

/-- The filesystem produced by the directory preparation and the three
unconditional writes, shared by the persist lemmas below. -/
def persistPre (cfg : Config) (cm : SignedHeader) (r : repoDir) (fs : FS) : FS :=
  updateFile (updateFile (updateFile
    (createDirIfNotExist (createDirIfNotExist fs r.chainPath) r.lrpath)
    r.latestPath (.other (NewLightRoot cm)))
    (r.heightPath cm.height) (.other (NewLightRoot cm)))
    r.binariesPath (.other cfg.BinaryBytes)

theorem persistPhase_eq (cfg : Config) (hashHex : String → String) (g : Json)
    (cm : SignedHeader) (ni : List NodePeer) (r : repoDir) (fs : FS) :
    persistPhase cfg hashHex g cm ni r fs =
      persistPeers ni r (persistGenesis hashHex g r (persistPre cfg cm r fs)) := rfl

/-- With a parseable prior peers file, the persist phase succeeds and
stores exactly the merged list. -/
theorem persistPhase_peers_merge (cfg : Config) (hashHex : String → String)
    (g : Json) (cm : SignedHeader) (ni : List NodePeer) (r : repoDir) (fs : FS)
    (fp : List String) (hprior : fs.files r.peersPath = some (.peerList fp)) :
    (persistPhase cfg hashHex g cm ni r fs).2.files r.peersPath =
      some (.peerList (mergePeers fp (stringsFromPeers ni))) := by
  have h5 : (persistPre cfg cm r fs).files r.peersPath = some (.peerList fp) := by
    unfold persistPre
    rw [persistPre_files cfg cm r fs (latestPath_ne_peersPath r).symm
      (heightPath_ne_peersPath r cm.height).symm (binariesPath_ne_peersPath r).symm]
    exact hprior
  have h6 : (persistGenesis hashHex g r (persistPre cfg cm r fs)).files r.peersPath =
      some (.peerList fp) := by
    rw [persistGenesis_files_ne _ _ _ _ (peersPath_ne_genesisPath r)
      (peersPath_ne_genesisSumPath r)]
    exact h5
  rw [persistPhase_eq]
  unfold persistPeers
  simp only [h6, unmarshalStrings]
  simp [files_updateFile_self]

/-- With an unparseable prior peers file, the persist phase reports the
unmarshal error and leaves the peers file untouched. -/
theorem persistPhase_peers_corrupt (cfg : Config) (hashHex : String → String)
    (g : Json) (cm : SignedHeader) (ni : List NodePeer) (r : repoDir) (fs : FS)
    (c : Content) (emsg : String) (hprior : fs.files r.peersPath = some c)
    (hcorrupt : unmarshalStrings c = .error emsg) :
    (persistPhase cfg hashHex g cm ni r fs).1 = some emsg ∧
    (persistPhase cfg hashHex g cm ni r fs).2.files r.peersPath = some c := by
  have h5 : (persistPre cfg cm r fs).files r.peersPath = some c := by
    unfold persistPre
    rw [persistPre_files cfg cm r fs (latestPath_ne_peersPath r).symm
      (heightPath_ne_peersPath r cm.height).symm (binariesPath_ne_peersPath r).symm]
    exact hprior
  have h6 : (persistGenesis hashHex g r (persistPre cfg cm r fs)).files r.peersPath =
      some c := by
    rw [persistGenesis_files_ne _ _ _ _ (peersPath_ne_genesisPath r)
      (peersPath_ne_genesisSumPath r)]
    exact h5
  rw [persistPhase_eq]
  unfold persistPeers
  simp only [h6, hcorrupt]
  exact ⟨trivial, trivial⟩

/-- After the persist phase, both light-root files hold the same
`NewLightRoot` bytes of the fetched signed header. -/
theorem persistPhase_lightroots (cfg : Config) (hashHex : String → String)
    (g : Json) (cm : SignedHeader) (ni : List NodePeer) (r : repoDir) (fs : FS) :
    (persistPhase cfg hashHex g cm ni r fs).2.files r.latestPath =
      some (.other (NewLightRoot cm)) ∧
    (persistPhase cfg hashHex g cm ni r fs).2.files (r.heightPath cm.height) =
      some (.other (NewLightRoot cm)) := by
  have hlat : (persistPre cfg cm r fs).files r.latestPath =
      some (.other (NewLightRoot cm)) := by
    unfold persistPre
    rw [files_updateFile_ne _ _ (latestPath_ne_binariesPath r)]
    by_cases hq : r.latestPath = r.heightPath cm.height
    · rw [hq, files_updateFile_self]
    · rw [files_updateFile_ne _ _ hq, files_updateFile_self]
  have hh : (persistPre cfg cm r fs).files (r.heightPath cm.height) =
      some (.other (NewLightRoot cm)) := by
    unfold persistPre
    rw [files_updateFile_ne _ _ (heightPath_ne_binariesPath r cm.height),
      files_updateFile_self]
  constructor
  · rw [persistPhase_eq,
      persistPeers_files_ne _ _ _ (latestPath_ne_peersPath r),
      persistGenesis_files_ne _ _ _ _ (latestPath_ne_genesisPath r)
        (latestPath_ne_genesisSumPath r)]
    exact hlat
  · rw [persistPhase_eq,
      persistPeers_files_ne _ _ _ (heightPath_ne_peersPath r cm.height),
      persistGenesis_files_ne _ _ _ _ (heightPath_ne_genesisPath r cm.height)
        (heightPath_ne_genesisSumPath r cm.height)]
    exact hh

/-- C6: on a run that reaches the persist phase with a prior peers file
holding the list `fp`, the persisted result is exactly the
duplicate-free union (by exact string equality, no host/port
canonicalization) of `fp` and the discovered peers, and the reported
number of newly added peers, `len(ps) - len(fp)` in the source, equals
the cardinality of the union minus the cardinality of the prior set. -/
theorem dumpInfo_peer_merge (base chainID : String) (cfg : Config) (resp : Resp)
    (hashHex : String → String) (sched : List (Fin 3)) (pkg : PkgState) (fs : FS)
    (st : NodeStatus) (g : Json) (cm : SignedHeader) (ni : List NodePeer)
    (hclient : resp.clientErr = none) (hstat : resp.statusR = .ok st)
    (hnet : st.network = chainID) (hcu : st.catchingUp = false)
    (hgen : resp.genesisR = .ok g) (hcm : resp.commitR st.latestBlockHeight = .ok cm)
    (hni : resp.netInfoR = .ok ni) (hpkg : pkg.egErr = none)
    (fp : List String)
    (hprior : fs.files (repoDir.mk base chainID).peersPath = some (.peerList fp))
    (hnodup : fp.Nodup) :
    (DumpInfo base chainID cfg resp hashHex sched pkg fs).fs.files
        (repoDir.mk base chainID).peersPath =
      some (.peerList (mergePeers fp (stringsFromPeers ni))) ∧
    (∀ x, x ∈ mergePeers fp (stringsFromPeers ni) ↔
      x ∈ fp ∨ x ∈ stringsFromPeers ni) ∧
    (mergePeers fp (stringsFromPeers ni)).Nodup ∧
    (mergePeers fp (stringsFromPeers ni)).length - fp.length =
      (fp.toFinset ∪ (stringsFromPeers ni).toFinset).card - fp.toFinset.card := by
  refine ⟨?_, ?_, ?_, ?_⟩
  · rw [dumpInfo_persist_reduction base chainID cfg resp hashHex sched pkg fs st g cm ni
      hclient hstat hnet hcu hgen hcm hni hpkg]
    exact persistPhase_peers_merge cfg hashHex g cm ni _ fs fp hprior
  · intro x
    simp only [mergePeers, dedupe, List.mem_dedup, List.mem_append]
  · exact List.nodup_dedup _
  · have hlen : (mergePeers fp (stringsFromPeers ni)).length =
        (fp.toFinset ∪ (stringsFromPeers ni).toFinset).card := by
      rw [mergePeers, dedupe, ← List.toFinset_append, List.card_toFinset]
    rw [hlen, List.toFinset_card_of_nodup hnodup]

/-- Witness for C6 at the claim's concrete instance: prior
`P = [a@1.2.3.4:26656]`, discovered
`D = [a@1.2.3.4:26656, b@5.6.7.8:26656]`; the merged list is exactly
`[a@1.2.3.4:26656, b@5.6.7.8:26656]` and the reported count is 1. -/
def wFsPeers : FS :=
  ⟨[], fun q => if q = (repoDir.mk "base" "chain-A").peersPath
    then some (.peerList ["a@1.2.3.4:26656"]) else none⟩

theorem dumpInfo_peer_merge_witness :
    (wFsPeers.files (repoDir.mk "base" "chain-A").peersPath =
      some (.peerList ["a@1.2.3.4:26656"])) ∧
    stringsFromPeers [wPeerA, wPeerB] = ["a@1.2.3.4:26656", "b@5.6.7.8:26656"] ∧
    mergePeers ["a@1.2.3.4:26656"] (stringsFromPeers [wPeerA, wPeerB]) =
      ["a@1.2.3.4:26656", "b@5.6.7.8:26656"] ∧
    (mergePeers ["a@1.2.3.4:26656"] (stringsFromPeers [wPeerA, wPeerB])).length - 1 = 1 ∧
    (DumpInfo "base" "chain-A" wCfg wRespOk (fun _ => "sum") wSched ⟨none⟩
        wFsPeers).fs.files (repoDir.mk "base" "chain-A").peersPath =
      some (.peerList (mergePeers ["a@1.2.3.4:26656"]
        (stringsFromPeers [wPeerA, wPeerB]))) :=
  ⟨rfl, rfl, by decide, by decide,
    (dumpInfo_peer_merge "base" "chain-A" wCfg wRespOk (fun _ => "sum") wSched ⟨none⟩
      wFsPeers wStatus (.obj [("k", .num 1)]) wHeader [wPeerA, wPeerB]
      rfl rfl rfl rfl rfl rfl rfl rfl ["a@1.2.3.4:26656"] rfl (by decide)).1⟩

/-- C8: when the peers file exists but does not parse as a JSON array
of strings, the run fails with the unmarshal error and the existing
peers file is left unchanged. -/
theorem dumpInfo_peer_file_corrupt (base chainID : String) (cfg : Config)
    (resp : Resp) (hashHex : String → String) (sched : List (Fin 3))
    (pkg : PkgState) (fs : FS)
    (st : NodeStatus) (g : Json) (cm : SignedHeader) (ni : List NodePeer)
    (hclient : resp.clientErr = none) (hstat : resp.statusR = .ok st)
    (hnet : st.network = chainID) (hcu : st.catchingUp = false)
    (hgen : resp.genesisR = .ok g) (hcm : resp.commitR st.latestBlockHeight = .ok cm)
    (hni : resp.netInfoR = .ok ni) (hpkg : pkg.egErr = none)
    (c : Content) (emsg : String)
    (hprior : fs.files (repoDir.mk base chainID).peersPath = some c)
    (hcorrupt : unmarshalStrings c = .error emsg) :
    (DumpInfo base chainID cfg resp hashHex sched pkg fs).err = some emsg ∧
    (DumpInfo base chainID cfg resp hashHex sched pkg fs).fs.files
        (repoDir.mk base chainID).peersPath = some c := by
  rw [dumpInfo_persist_reduction base chainID cfg resp hashHex sched pkg fs st g cm ni
    hclient hstat hnet hcu hgen hcm hni hpkg]
  exact persistPhase_peers_corrupt cfg hashHex g cm ni _ fs c emsg hprior hcorrupt

/-- Witness for C8: a peers file holding bytes that are not a JSON
array of strings. -/
def wFsCorrupt : FS :=
  ⟨[], fun q => if q = (repoDir.mk "base" "chain-A").peersPath
    then some (.other "not-a-json-array") else none⟩

theorem dumpInfo_peer_file_corrupt_witness :
    (wFsCorrupt.files (repoDir.mk "base" "chain-A").peersPath =
      some (.other "not-a-json-array")) ∧
    unmarshalStrings (.other "not-a-json-array") =
      .error "unmarshaling peer strings: invalid peers content" ∧
    (DumpInfo "base" "chain-A" wCfg wRespOk (fun _ => "sum") wSched ⟨none⟩
        wFsCorrupt).err = some "unmarshaling peer strings: invalid peers content" ∧
    (DumpInfo "base" "chain-A" wCfg wRespOk (fun _ => "sum") wSched ⟨none⟩
        wFsCorrupt).fs.files (repoDir.mk "base" "chain-A").peersPath =
      some (.other "not-a-json-array") :=
  have h := dumpInfo_peer_file_corrupt "base" "chain-A" wCfg wRespOk (fun _ => "sum")
    wSched ⟨none⟩ wFsCorrupt wStatus (.obj [("k", .num 1)]) wHeader [wPeerA, wPeerB]
    rfl rfl rfl rfl rfl rfl rfl rfl (.other "not-a-json-array")
    "unmarshaling peer strings: invalid peers content" rfl rfl
  ⟨rfl, rfl, h.1, h.2⟩

/-- C10: after a run that reaches the persist phase, the files
`light-roots/latest.json` and `light-roots/<h>.json` (for the fetched
commit's header height h) hold byte-identical content, namely the
`NewLightRoot` serialization of trust-height and trust-hash of the
fetched signed header, because both are produced by the same
`NewLightRoot` call. -/
theorem dumpInfo_lightroots_identical (base chainID : String) (cfg : Config)
    (resp : Resp) (hashHex : String → String) (sched : List (Fin 3))
    (pkg : PkgState) (fs : FS)
    (st : NodeStatus) (g : Json) (cm : SignedHeader) (ni : List NodePeer)
    (hclient : resp.clientErr = none) (hstat : resp.statusR = .ok st)
    (hnet : st.network = chainID) (hcu : st.catchingUp = false)
    (hgen : resp.genesisR = .ok g) (hcm : resp.commitR st.latestBlockHeight = .ok cm)
    (hni : resp.netInfoR = .ok ni) (hpkg : pkg.egErr = none) :
    (DumpInfo base chainID cfg resp hashHex sched pkg fs).fs.files
        (repoDir.mk base chainID).latestPath = some (.other (NewLightRoot cm)) ∧
    (DumpInfo base chainID cfg resp hashHex sched pkg fs).fs.files
        ((repoDir.mk base chainID).heightPath cm.height) =
      some (.other (NewLightRoot cm)) ∧
    NewLightRoot cm = render (.obj [("trust-height", .num cm.height),
      ("trust-hash", .str cm.blockIDHash)]) 0 := by
  rw [dumpInfo_persist_reduction base chainID cfg resp hashHex sched pkg fs st g cm ni
    hclient hstat hnet hcu hgen hcm hni hpkg]
  have h := persistPhase_lightroots cfg hashHex g cm ni (repoDir.mk base chainID) fs
  exact ⟨h.1, h.2, rfl⟩

/-- Witness for C10 at a fresh filesystem and a healthy node. -/
theorem dumpInfo_lightroots_identical_witness :
    wRespOk.clientErr = none ∧ wRespOk.statusR = .ok wStatus ∧
    wStatus.network = "chain-A" ∧ wStatus.catchingUp = false ∧
    (DumpInfo "base" "chain-A" wCfg wRespOk (fun _ => "sum") wSched ⟨none⟩
        wFsEmpty).fs.files (repoDir.mk "base" "chain-A").latestPath =
      some (.other (NewLightRoot wHeader)) ∧
    (DumpInfo "base" "chain-A" wCfg wRespOk (fun _ => "sum") wSched ⟨none⟩
        wFsEmpty).fs.files ((repoDir.mk "base" "chain-A").heightPath wHeader.height) =
      some (.other (NewLightRoot wHeader)) :=
  have h := dumpInfo_lightroots_identical "base" "chain-A" wCfg wRespOk
    (fun _ => "sum") wSched ⟨none⟩ wFsEmpty wStatus (.obj [("k", .num 1)]) wHeader
    [wPeerA, wPeerB] rfl rfl rfl rfl rfl rfl rfl rfl
  ⟨rfl, rfl, rfl, rfl, h.1, h.2.1⟩

/-- C5 (refuted by the code): re-invocation of `DumpInfo` is not a
fresh run.  The package-level `errgroup.Group` (part_000 lines 19-25)
records the first goroutine error through `sync.Once` and its `Wait`
keeps returning that error for the lifetime of the process.  A first
run whose commit fetch fails records `commit: boom`; a second run
against a fully healthy node, inheriting the package state left by the
first run, still fails with the stale `fetching: commit: boom`, while
the same invocation started from a fresh package state succeeds: the
outcome depends on state left behind by the previous invocation, not
only on the current node responses and on-disk state. -/
theorem dumpInfo_stale_errgroup_bug :
    (DumpInfo "base" "chain-A" wCfg wRespCommitFail (fun _ => "sum") wSched ⟨none⟩
      wFsEmpty).err = some "fetching: commit: boom" ∧
    (DumpInfo "base" "chain-A" wCfg wRespCommitFail (fun _ => "sum") wSched ⟨none⟩
      wFsEmpty).pkg = ⟨some "commit: boom"⟩ ∧
    (DumpInfo "base" "chain-A" wCfg wRespCommitFail (fun _ => "sum") wSched ⟨none⟩
      wFsEmpty).fs = wFsEmpty ∧
    (DumpInfo "base" "chain-A" wCfg wRespOk (fun _ => "sum") wSched
      ⟨some "commit: boom"⟩ wFsEmpty).err = some "fetching: commit: boom" ∧
    (DumpInfo "base" "chain-A" wCfg wRespOk (fun _ => "sum") wSched ⟨none⟩
      wFsEmpty).err = none :=
  ⟨rfl, rfl, rfl, rfl, rfl⟩
